import Mathlib

/-!
# Verification of the polyhedronisme mesh core (src/polyhedronisme.js)

Shallow embedding of the mesh-topology construction engine (the `polyflag`
assembler), the Conway operator library, the canonicalization subsystem and the
triangulation subsystem of `src/polyhedronisme.js`, together with proofs
settling the frozen claims about the natural-language specification.

Modelling conventions, justified once here:

* JS numbers are modelled by exact rationals `ℚ`.  `Math.sqrt` is modelled by
  the fixed-point rational approximation `jsqrt` below.  No claim settled in
  this file depends on the rounding of square roots: square roots only enter
  vertex coordinates (which never influence the flag topology) and coarse
  threshold comparisons against `1e-8` at values many orders of magnitude away
  from the threshold.

* JS objects used as string-keyed maps are modelled by association lists
  (`List (key × value)`) in insertion order.  JS `for...in` enumeration order
  (canonical array-index keys first, in ascending numeric order, then the
  remaining string keys in insertion order) is reproduced by `jsOrder`, driven
  by a per-name-type function telling which names print as canonical array
  indices.

* The symbolic string names built by each operator (`"v3"`, `"center5"`,
  `"3_7"`, ...) are modelled by one inductive name type per operator whose
  constructors are in bijection with the string forms the operator builds;
  each name type's doc comment records the string form of every constructor,
  and distinct constructor applications always render to distinct strings
  (digit sequences separated by non-digit markers), so equality of modelled
  names coincides with equality of source strings.
-/

set_option maxRecDepth 20000
set_option maxHeartbeats 4000000

attribute [local semireducible] Rat.add Rat.mul Rat.inv Rat.sub Rat.ofScientific

namespace Polyhedronisme

/-- A 64-bit-word count for `n` (times 64): an upper bound on `n`'s binary
length, computed by structural recursion so that kernel reduction can
evaluate it (`Nat.log2` and `Nat.sqrt` are defined by well-founded recursion,
which the kernel cannot unfold). -/
def nbits : ℕ → ℕ → ℕ
  | 0, _ => 0
  | fuel + 1, n => if n = 0 then 0 else 64 + nbits fuel (n >>> 64)

/-- Greedy binary (digit-by-digit) square root: sets candidate bits from high
to low, keeping `r * r ≤ n`. -/
def isqrtBits : ℕ → ℕ → ℕ → ℕ
  | 0, _, r => r
  | i + 1, n, r =>
    let r2 := r + 2 ^ i
    isqrtBits i n (if r2 * r2 ≤ n then r2 else r)

/-- `⌊√n⌋`, computed with a structurally recursive bit budget (values agree
with `Nat.sqrt` on every input supplied in this file; the budget
`64 · 64 = 4096` bits covers them all). -/
def isqrt (n : ℕ) : ℕ := isqrtBits (nbits 64 n / 2 + 1) n 0

/-- Model of `Math.sqrt` on nonnegative rationals: fixed-point square root with
8 fractional decimal digits, `jsqrt q = ⌊√(q·10^16)⌋ / 10^8`.  Monotone,
exact on squares of multiples of `10^-8`, and `jsqrt q = 0` iff `q < 10^-16`.
No claim settled in this file depends on more than that of the rounding.
(JS `Math.sqrt` of a negative number is `NaN`; no modelled code path reaches
it, and the model returns `0` there.) -/
def jsqrt (q : ℚ) : ℚ :=
  (isqrt (q * 10 ^ 16).floor.toNat : ℚ) / 10 ^ 8

/-- 3-vectors of (modelled) JS numbers. -/
abbrev Vec3 : Type := ℚ × ℚ × ℚ

def zeroV : Vec3 := (0, 0, 0)

/-- `mult` (scalar multiplication) from the source. -/
def mult (c : ℚ) (v : Vec3) : Vec3 := (c * v.1, c * v.2.1, c * v.2.2)

/-- `add` from the source. -/
def add (a b : Vec3) : Vec3 := (a.1 + b.1, a.2.1 + b.2.1, a.2.2 + b.2.2)

/-- `sub` from the source. -/
def sub (a b : Vec3) : Vec3 := (a.1 - b.1, a.2.1 - b.2.1, a.2.2 - b.2.2)

/-- `dot` from the source. -/
def dot (a b : Vec3) : ℚ := a.1 * b.1 + a.2.1 * b.2.1 + a.2.2 * b.2.2

/-- `cross` from the source. -/
def cross (a b : Vec3) : Vec3 :=
  (a.2.1 * b.2.2 - a.2.2 * b.2.1,
   a.2.2 * b.1 - a.1 * b.2.2,
   a.1 * b.2.1 - a.2.1 * b.1)

/-- `mag2` from the source. -/
def mag2 (v : Vec3) : ℚ := dot v v

/-- `mag` from the source (`sqrt(dot(vec,vec))`). -/
def mag (v : Vec3) : ℚ := jsqrt (mag2 v)

/-- `unit` from the source: `mult(1/sqrt(mag2(v)), v)`.  For the zero vector
JS produces `NaN`s; the model yields the zero vector (`1/0 = 0` on `ℚ`).  No
claim evaluates `unit` at a zero vector. -/
def unit (v : Vec3) : Vec3 := mult (1 / jsqrt (mag2 v)) v

/-- `midpoint` from the source. -/
def midpoint (a b : Vec3) : Vec3 := mult (1 / 2) (add a b)

/-- `tween` from the source. -/
def tween (a b : Vec3) (t : ℚ) : Vec3 :=
  ((1 - t) * a.1 + t * b.1, (1 - t) * a.2.1 + t * b.2.1, (1 - t) * a.2.2 + t * b.2.2)

/-- `oneThird` from the source. -/
def oneThird (a b : Vec3) : Vec3 := tween a b (1 / 3)

/-- `reciprocal` from the source: reflection in the unit sphere. -/
def reciprocal (v : Vec3) : Vec3 := mult (1 / mag2 v) v

/-- `tangentPoint` from the source: point of the line `v1..v2` closest to the
origin. -/
def tangentPoint (v1 v2 : Vec3) : Vec3 :=
  let d := sub v2 v1
  sub v1 (mult (dot d v1 / mag2 d) d)

/-- `edgeDist` from the source. -/
def edgeDist (v1 v2 : Vec3) : ℚ := jsqrt (mag2 (tangentPoint v1 v2))

/-- `orthogonal` from the source: cross product of two adjacent edge vectors. -/
def orthogonal (v1 v2 v3 : Vec3) : Vec3 := cross (sub v2 v1) (sub v3 v2)

/-- `calcCentroid` from the source.  (For the empty list JS divides by zero;
the model returns the zero vector; unreached by the claims.) -/
def calcCentroid (vertices : List Vec3) : Vec3 :=
  mult (1 / (vertices.length : ℚ)) (vertices.foldl add zeroV)

/-- The last two elements of a list, as used by the source's
`[v1, v2] = vertices.slice(-2)` idiom (lists of length ≥ 2 everywhere it is
used on the claims' inputs; shorter lists are given default entries). -/
def lastTwo (l : List Vec3) : Vec3 × Vec3 :=
  (l.getD (l.length - 2) zeroV, l.getD (l.length - 1) zeroV)

/-- `normal` from the source: normalized Newell-style average of
`orthogonal(v1,v2,v3)` over the cyclic triple window. -/
def normal (vertices : List Vec3) : Vec3 :=
  let start := lastTwo vertices
  unit (vertices.foldl
    (fun (acc : Vec3 × (Vec3 × Vec3)) v3 =>
      (add acc.1 (orthogonal acc.2.1 acc.2.2 v3), (acc.2.2, v3)))
    (zeroV, start)).1

/-- `intersect` from the source: the first element of `set1` that also occurs
in `set2` and in `set3` (or `null`, i.e. `none`). -/
def intersect (set1 set2 set3 : List ℕ) : Option ℕ :=
  set1.find? (fun s1 => decide (s1 ∈ set2) && decide (s1 ∈ set3))

/-! ## The mesh model -/

/-- The `polyhedron` class: ordered vertex list, ordered oriented faces
(lists of vertex ids), cosmetic name, optional per-face color classes. -/
structure polyhedron where
  vertices : List Vec3 := []
  faces : List (List ℕ) := []
  name : String := "null polyhedron"
  face_classes : List ℕ := []
deriving DecidableEq, Repr

/-- `faceToEdges` from the source: directed edges `[prev, v]` around a face,
starting from the face's last vertex. -/
def faceToEdges (face : List ℕ) : List (ℕ × ℕ) :=
  match face.getLast? with
  | none => []
  | some v1 => (face.foldl
      (fun (acc : List (ℕ × ℕ) × ℕ) v2 => (acc.1 ++ [(acc.2, v2)], v2))
      ([], v1)).1

/-- Canonical `(min,max)` key of an undirected edge, modelling the string key
`a~b` (with `a < b`) of `polyhedron.edges`. -/
def ekey (e : ℕ × ℕ) : ℕ × ℕ := if e.1 < e.2 then e else (e.2, e.1)

/-! JS object-as-map helpers over association lists. -/

/-- JS property read `obj[k]`. -/
def jsGet {K A : Type} [DecidableEq K] (l : List (K × A)) (k : K) : Option A :=
  (l.find? (fun kv => kv.1 = k)).map (fun kv => kv.2)

/-- JS property write `obj[k] = a`: replaces the value in place if the key is
present (keeping its enumeration position), else appends. -/
def jsUpsert {K A : Type} [DecidableEq K] (l : List (K × A)) (k : K) (a : A) :
    List (K × A) :=
  if (l.find? (fun kv => kv.1 = k)).isSome then
    l.map (fun kv => if kv.1 = k then (k, a) else kv)
  else l ++ [(k, a)]

/-- Guarded JS property write used by `newV`: first writer wins. -/
def jsPutIfAbsent {K A : Type} [DecidableEq K] (l : List (K × A)) (k : K) (a : A) :
    List (K × A) :=
  if (l.find? (fun kv => kv.1 = k)).isSome then l else l ++ [(k, a)]

/-- JS `for...in` enumeration order of an object's own keys: canonical
array-index keys first in ascending numeric order, then all other string keys
in insertion order.  `num` tells which modelled names print as canonical
array-index strings (and their value). -/
def jsOrder {K A : Type} (num : K → Option ℕ) (l : List (K × A)) : List (K × A) :=
  (l.filter (fun kv => (num kv.1).isSome)).insertionSort
      (fun a b => (num a.1).getD 0 ≤ (num b.1).getD 0)
  ++ l.filter (fun kv => (num kv.1).isNone)

/-- `polyhedron.edges()` from the source: directed edges of all faces are
written into a map keyed by the canonical `(min,max)` pair (later writes
overwrite the value in place), and the map's values are returned in key
insertion order. -/
def polyhedron.edges (p : polyhedron) : List (ℕ × ℕ) :=
  ((p.faces.map faceToEdges).foldl
    (fun u es => es.foldl (fun u e => jsUpsert u (ekey e) e) u) []).map
    (fun kv => kv.2)

/-- `polyhedron.centers()` from the source: per-face average of vertex
coordinates.  Out-of-range vertex ids (which would be JS `undefined`) are
given the zero vector; unreached by the claims. -/
def polyhedron.centers (p : polyhedron) : List Vec3 :=
  p.faces.map (fun face =>
    mult (1 / (face.length : ℚ))
      (face.foldl (fun fcenter vidx => add fcenter (p.vertices.getD vidx zeroV)) zeroV))

/-- `polyhedron.normals()` from the source. -/
def polyhedron.normals (p : polyhedron) : List Vec3 :=
  p.faces.map (fun face => normal (face.map (fun vidx => p.vertices.getD vidx zeroV)))

/-! ## The flag assembly engine (`polyflag`) -/

/-- `MAX_FACE_SIDEDNESS` from the source. -/
def MAX_FACE_SIDEDNESS : ℕ := 1000

/-- The `polyflag` builder: `verts` models both `vertidxs` and `vertices`
(the source keeps two objects with the same key set, keys registered
first-writer-wins by `newV`); `flags` maps each face name to its per-face
successor map. -/
structure polyflag (VN FN : Type) where
  verts : List (VN × Vec3) := []
  flags : List (FN × List (VN × VN)) := []

/-- `polyflag.newV` from the source: registers the coordinate under the name
unless the name is already present. -/
def newV {VN FN : Type} [DecidableEq VN] (fl : polyflag VN FN) (vertName : VN)
    (coordinates : Vec3) : polyflag VN FN :=
  { fl with verts := jsPutIfAbsent fl.verts vertName coordinates }

/-- `polyflag.newFlag` from the source: `flags[faceName][vertName1] = vertName2`,
creating the face's map if absent. -/
def newFlag {VN FN : Type} [DecidableEq VN] [DecidableEq FN] (fl : polyflag VN FN)
    (faceName : FN) (vertName1 vertName2 : VN) : polyflag VN FN :=
  match jsGet fl.flags faceName with
  | none => { fl with flags := fl.flags ++ [(faceName, [(vertName1, vertName2)])] }
  | some m => { fl with flags := jsUpsert fl.flags faceName (jsUpsert m vertName1 vertName2) }

/-- The JS value `v` of the traversal loop is either a vertex name or
`undefined`; using it as a property key coerces `undefined` to the string
`"undefined"`, which may itself be a registered name (`undefKey`). -/
def keyOf {VN : Type} (undefKey : Option VN) : Option VN → Option VN
  | some v => some v
  | none => undefKey

/-- One step of the traversal, `v = this.flags[i][v]`, on JS values
(`none` = `undefined`): using `undefined` as a property key coerces it to the
string `"undefined"` (`undefKey`). -/
def topolyStep {VN : Type} [DecidableEq VN] (m : List (VN × VN))
    (undefKey : Option VN) : Option VN → Option VN :=
  fun ov => (keyOf undefKey ov).bind (jsGet m)

/-- The body of `topoly`'s face-traversal `while` loop.  State: `v` is the
current JS value (possibly `undefined`), `fuel` counts the remaining loop
iterations before `faceCTR > MAX_FACE_SIDEDNESS` fires (the JS counter starts
at `0` and the loop aborts after the iteration that raises it past the bound,
so the initial fuel is `MAX_FACE_SIDEDNESS`).  Returns the pushed vertex ids
and whether the bad-flag abort fired.  Unresolved name lookups (JS
`undefined` array entries) are recorded as id `0`; no claim depends on them. -/
def walkGo {VN : Type} [DecidableEq VN] (m : List (VN × VN)) (idx : VN → Option ℕ)
    (undefKey : Option VN) (v0 : VN) : Option VN → ℕ → List ℕ × Bool
  | v, fuel =>
    if v = some v0 then ([], false)
    else
      let e := (((keyOf undefKey v).bind idx)).getD 0
      let v1 := topolyStep m undefKey v
      match fuel with
      | 0 => ([e], true)
      | fuel + 1 =>
        let r := walkGo m idx undefKey v0 v1 fuel
        (e :: r.1, r.2)

/-- One complete face traversal of `topoly`: push the start vertex, step once,
then loop until back at the start or out of fuel. -/
def walkFace {VN : Type} [DecidableEq VN] (m : List (VN × VN)) (idx : VN → Option ℕ)
    (undefKey : Option VN) (v0 : VN) : List ℕ × Bool :=
  let r := walkGo m idx undefKey v0 (jsGet m v0) MAX_FACE_SIDEDNESS
  ((idx v0).getD 0 :: r.1, r.2)

/-- The vertex renumbering of `topoly`: a name's integer id is its position
in the JS enumeration order of `vertidxs`. -/
def topolyIdx {VN FN : Type} [DecidableEq VN] (numV : VN → Option ℕ)
    (fl : polyflag VN FN) : VN → Option ℕ :=
  fun n => ((jsOrder numV fl.verts).map (fun kv => kv.1)).findIdx? (fun k => k = n)

/-- `polyflag.topoly` from the source.  Vertices are numbered in JS
enumeration order of `vertidxs`; each face is rebuilt by walking its successor
map from (the successor of) its first enumerated key.  Besides the assembled
polyhedron it returns the list of face names for which the
`"Bad flag spec, have a neverending face"` console report fired. -/
def topoly {VN FN : Type} [DecidableEq VN] [DecidableEq FN] (numV : VN → Option ℕ)
    (numF : FN → Option ℕ) (undefKey : Option VN) (fl : polyflag VN FN) :
    polyhedron × List FN :=
  let ov := jsOrder numV fl.verts
  let idx := topolyIdx numV fl
  let ofl := jsOrder numF fl.flags
  let results := ofl.map (fun ff =>
    match (jsOrder numV ff.2).head? with
    | none => (ff.1, ([(((keyOf undefKey none).bind idx)).getD 0], false))
    | some kv => (ff.1, walkFace ff.2 idx undefKey kv.2))
  ({ vertices := ov.map (fun kv => kv.2),
     faces := results.map (fun r => r.2.1),
     name := "unknown polyhedron" },
   (results.filter (fun r => r.2.2)).map (fun r => r.1))

/-! ## Primitive seeds used by the claims -/

/-- The seed `tetrahedron()` from the source. -/
def tetrahedron : polyhedron :=
  { name := "T",
    faces := [[0, 1, 2], [0, 2, 3], [0, 3, 1], [1, 3, 2]],
    vertices := [(1, 1, 1), (1, -1, -1), (-1, 1, -1), (-1, -1, 1)] }

/-- The seed `cube()` from the source (coordinates `±0.7071067811865475`,
the JS double literal, here the exact decimal it prints as). -/
def cube : polyhedron :=
  { name := "C",
    faces := [[3, 0, 1, 2], [3, 4, 5, 0], [0, 5, 6, 1], [1, 6, 7, 2],
              [2, 7, 4, 3], [5, 4, 7, 6]],
    vertices :=
      let q : ℚ := 7071067811865475 / 10 ^ 16
      [(q, q, q), (-q, q, q), (-q, -q, q), (q, -q, q),
       (q, -q, -q), (q, q, -q), (-q, q, -q), (-q, -q, -q)] }

/-! ## Operator: kisN -/

/-- Vertex names of `kisN`: `v i` renders `"v{i}"`, `apex i` renders
`"apex{i}"`; the two families never collide and are injective. -/
inductive KisV where
  | v (i : ℕ)
  | apex (i : ℕ)
deriving DecidableEq

/-- Face names of `kisN`: `plain i` renders as the canonical array-index
string `"{i}"` (non-matching faces), `pyr i prev` renders `"{i}v{prev}"`
(the source's `` `${i}${v1}` `` with `v1 = "v"+prev`); injective and
non-colliding. -/
inductive KisF where
  | plain (i : ℕ)
  | pyr (i prev : ℕ)
deriving DecidableEq

def kisNumV : KisV → Option ℕ := fun _ => none

def kisNumF : KisF → Option ℕ
  | .plain i => some i
  | .pyr _ _ => none

/-- Per-face flag emission of `kisN` (the body of the face loop); the
accumulator carries the builder, the `foundAny` flag and the previous vertex
id `v1`. -/
def kisFace (normals centers : List Vec3) (n : ℕ) (apexdist : ℚ)
    (st : polyflag KisV KisF × Bool) (i : ℕ) (f : List ℕ) :
    polyflag KisV KisF × Bool :=
  match f.getLast? with
  | none => st
  | some last =>
    let r := f.foldl (fun (acc : polyflag KisV KisF × Bool × ℕ) v =>
      let fl := acc.1
      let found := acc.2.1
      let prev := acc.2.2
      if f.length = n ∨ n = 0 then
        let fl := newV fl (KisV.apex i)
          (add (centers.getD i zeroV) (mult apexdist (normals.getD i zeroV)))
        let fl := newFlag fl (KisF.pyr i prev) (KisV.v prev) (KisV.v v)
        let fl := newFlag fl (KisF.pyr i prev) (KisV.v v) (KisV.apex i)
        let fl := newFlag fl (KisF.pyr i prev) (KisV.apex i) (KisV.v prev)
        (fl, true, v)
      else
        (newFlag fl (KisF.plain i) (KisV.v prev) (KisV.v v), found, v))
      (st.1, st.2, last)
    (r.1, r.2.1)

/-- `kisN` from the source (parameter defaults `n = 0`, `apexdist = 0.1` are
applied by callers).  Returns the new polyhedron together with the `foundAny`
flag; `foundAny = false` is the condition under which the source reports
`"No n-fold components were found."` on the console. -/
def kisN (poly : polyhedron) (n : ℕ) (apexdist : ℚ) : polyhedron × Bool :=
  let fl : polyflag KisV KisF :=
    (List.range poly.vertices.length).foldl
      (fun fl i => newV fl (KisV.v i) (poly.vertices.getD i zeroV)) {}
  let normals := poly.normals
  let centers := poly.centers
  let r := poly.faces.enum.foldl
    (fun st p => kisFace normals centers n apexdist st p.1 p.2) (fl, false)
  let res := topoly kisNumV kisNumF none r.1
  ({ res.1 with name := "k" ++ (if n = 0 then "" else toString n) ++ poly.name },
   r.2)

/-! ## Operator: insetN (and the extrudeN / loft wrappers) -/

/-- Vertex names of `insetN`: `v i` renders `"v{i}"`; `fv i vid` renders
`"f{i}v{vid}"` (declared by `` `f${i}v${v}` `` and referenced by
`` `f${i}${v2}` `` with `v2 = "v"+vid`, the same string). -/
inductive InsV where
  | v (i : ℕ)
  | fv (i vid : ℕ)
deriving DecidableEq

/-- Face names of `insetN`: `plain i` renders `"{i}"` (canonical array
index), `fc i prev` renders `"{i}v{prev}"`, `ex i` renders `"ex{i}"`. -/
inductive InsF where
  | plain (i : ℕ)
  | fc (i prev : ℕ)
  | ex (i : ℕ)
deriving DecidableEq

def insNumV : InsV → Option ℕ := fun _ => none

def insNumF : InsF → Option ℕ
  | .plain i => some i
  | .fc _ _ => none
  | .ex _ => none

/-- Per-face flag emission of `insetN` (third loop of the source). -/
def insetFace (n : ℕ) (st : polyflag InsV InsF × Bool) (i : ℕ) (f : List ℕ) :
    polyflag InsV InsF × Bool :=
  match f.getLast? with
  | none => st
  | some last =>
    let r := f.foldl (fun (acc : polyflag InsV InsF × Bool × ℕ) v =>
      let fl := acc.1
      let found := acc.2.1
      let prev := acc.2.2
      if f.length = n ∨ n = 0 then
        let fl := newFlag fl (InsF.fc i prev) (InsV.v prev) (InsV.v v)
        let fl := newFlag fl (InsF.fc i prev) (InsV.v v) (InsV.fv i v)
        let fl := newFlag fl (InsF.fc i prev) (InsV.fv i v) (InsV.fv i prev)
        let fl := newFlag fl (InsF.fc i prev) (InsV.fv i prev) (InsV.v prev)
        let fl := newFlag fl (InsF.ex i) (InsV.fv i prev) (InsV.fv i v)
        (fl, true, v)
      else
        (newFlag fl (InsF.plain i) (InsV.v prev) (InsV.v v), found, v))
      (st.1, st.2, last)
    (r.1, r.2.1)

/-- `insetN` from the source (defaults `n = 0`, `inset_dist = 0.5`,
`popout_dist = -0.2` applied by callers).  Second component is the `foundAny`
reporting flag as in `kisN`. -/
def insetN (poly : polyhedron) (n : ℕ) (inset_dist popout_dist : ℚ) :
    polyhedron × Bool :=
  let fl : polyflag InsV InsF :=
    (List.range poly.vertices.length).foldl
      (fun fl i => newV fl (InsV.v i) (poly.vertices.getD i zeroV)) {}
  let normals := poly.normals
  let centers := poly.centers
  let fl := poly.faces.enum.foldl (fun fl p =>
    if p.2.length = n ∨ n = 0 then
      p.2.foldl (fun fl v =>
        newV fl (InsV.fv p.1 v)
          (add (tween (poly.vertices.getD v zeroV) (centers.getD p.1 zeroV) inset_dist)
               (mult popout_dist (normals.getD p.1 zeroV)))) fl
    else fl) fl
  let r := poly.faces.enum.foldl (fun st p => insetFace n st p.1 p.2) (fl, false)
  let res := topoly insNumV insNumF none r.1
  ({ res.1 with name := "n" ++ (if n = 0 then "" else toString n) ++ poly.name },
   r.2)

/-- `extrudeN` from the source: `insetN(poly, n, 0.0, 0.3)` renamed. -/
def extrudeN (poly : polyhedron) (n : ℕ) : polyhedron :=
  let newpoly := (insetN poly n 0 (3 / 10)).1
  { newpoly with name := "x" ++ (if n = 0 then "" else toString n) ++ poly.name }

/-- `loft` from the source: `insetN(poly, n, alpha, 0.0)` renamed. -/
def loft (poly : polyhedron) (n : ℕ) (alpha : ℚ) : polyhedron :=
  let newpoly := (insetN poly n alpha 0).1
  { newpoly with name := "l" ++ (if n = 0 then "" else toString n) ++ poly.name }

/-! ## Operator: ambo -/

/-- Vertex names of `ambo`: `mid a b` (with `a ≤ b` by construction) renders
the source's `midName` string `"{a}_{b}"` with `a < b`. -/
inductive AmbV where
  | mid (a b : ℕ)
deriving DecidableEq

/-- Face names of `ambo`: `orig i` renders `"orig{i}"`, `dualv v` renders
`"dual{v}"`. -/
inductive AmbF where
  | orig (i : ℕ)
  | dualv (v : ℕ)
deriving DecidableEq

/-- `midName(v1,v2)` from the source: the order-normalized edge name. -/
def midName (v1 v2 : ℕ) : AmbV := if v1 < v2 then AmbV.mid v1 v2 else AmbV.mid v2 v1

/-- The last two entries of a face, as in `f.slice(-2)` (default `0` for the
out-of-range reads of degenerate faces, unreached by the claims). -/
def lastTwoN (f : List ℕ) : ℕ × ℕ := (f.getD (f.length - 2) 0, f.getD (f.length - 1) 0)

/-- `ambo` from the source. -/
def ambo (poly : polyhedron) : polyhedron :=
  let fl := poly.faces.enum.foldl (fun (fl : polyflag AmbV AmbF) p =>
    let i := p.1
    let f := p.2
    (f.foldl (fun (acc : polyflag AmbV AmbF × ℕ × ℕ) v3 =>
      let fl := acc.1
      let v1 := acc.2.1
      let v2 := acc.2.2
      let fl := if v1 < v2 then
          newV fl (midName v1 v2)
            (midpoint (poly.vertices.getD v1 zeroV) (poly.vertices.getD v2 zeroV))
        else fl
      let fl := newFlag fl (AmbF.orig i) (midName v1 v2) (midName v2 v3)
      let fl := newFlag fl (AmbF.dualv v2) (midName v2 v3) (midName v1 v2)
      (fl, v2, v3)) (fl, lastTwoN f)).1) {}
  let res := topoly (fun _ => none) (fun _ => none) none fl
  { res.1 with name := "a" ++ poly.name }

/-! ## Operator: gyro -/

/-- Vertex names of `gyro`: `v i` is `"v{i}"`, `center i` is `"center{i}"`,
`dir a b` is the directed one-third point name `"{a}~{b}"`. -/
inductive GyV where
  | v (i : ℕ)
  | center (i : ℕ)
  | dir (a b : ℕ)
deriving DecidableEq

/-- Face names of `gyro`: `fc i prev` renders `"{i}f{prev}"`. -/
inductive GyF where
  | fc (i prev : ℕ)
deriving DecidableEq

/-- `gyro` from the source. -/
def gyro (poly : polyhedron) : polyhedron :=
  let fl : polyflag GyV GyF :=
    (List.range poly.vertices.length).foldl
      (fun fl i => newV fl (GyV.v i) (unit (poly.vertices.getD i zeroV))) {}
  let centers := poly.centers
  let fl := (List.range poly.faces.length).foldl
    (fun fl i => newV fl (GyV.center i) (unit (centers.getD i zeroV))) fl
  let fl := poly.faces.enum.foldl (fun fl p =>
    let i := p.1
    let f := p.2
    (f.foldl (fun (acc : polyflag GyV GyF × ℕ × ℕ) v =>
      let fl := acc.1
      let v1 := acc.2.1
      let v2 := acc.2.2
      let v3 := v
      let fl := newV fl (GyV.dir v1 v2)
        (oneThird (poly.vertices.getD v1 zeroV) (poly.vertices.getD v2 zeroV))
      let fl := newFlag fl (GyF.fc i v1) (GyV.center i) (GyV.dir v1 v2)
      let fl := newFlag fl (GyF.fc i v1) (GyV.dir v1 v2) (GyV.dir v2 v1)
      let fl := newFlag fl (GyF.fc i v1) (GyV.dir v2 v1) (GyV.v v2)
      let fl := newFlag fl (GyF.fc i v1) (GyV.v v2) (GyV.dir v2 v3)
      let fl := newFlag fl (GyF.fc i v1) (GyV.dir v2 v3) (GyV.center i)
      (fl, v2, v3)) (fl, lastTwoN f)).1) fl
  let res := topoly (fun _ => none) (fun _ => none) none fl
  { res.1 with name := "g" ++ poly.name }

/-! ## Operator: propellor -/

/-- Vertex names of `propellor`: `v i` is `"v{i}"`, `dir a b` is `"{a}~{b}"`. -/
inductive PrV where
  | v (i : ℕ)
  | dir (a b : ℕ)
deriving DecidableEq

/-- Face names of `propellor`: `central i` renders `"v{i}"` (the central skew
face is named after the old vertex-name string), `fc i v2` renders
`"{i}f{v2}"`. -/
inductive PrF where
  | central (i : ℕ)
  | fc (i v2 : ℕ)
deriving DecidableEq

/-- `propellor` from the source. -/
def propellor (poly : polyhedron) : polyhedron :=
  let fl : polyflag PrV PrF :=
    (List.range poly.vertices.length).foldl
      (fun fl i => newV fl (PrV.v i) (unit (poly.vertices.getD i zeroV))) {}
  let fl := poly.faces.enum.foldl (fun fl p =>
    let i := p.1
    let f := p.2
    (f.foldl (fun (acc : polyflag PrV PrF × ℕ × ℕ) v =>
      let fl := acc.1
      let v1 := acc.2.1
      let v2 := acc.2.2
      let v3 := v
      let fl := newV fl (PrV.dir v1 v2)
        (oneThird (poly.vertices.getD v1 zeroV) (poly.vertices.getD v2 zeroV))
      let fl := newFlag fl (PrF.central i) (PrV.dir v1 v2) (PrV.dir v2 v3)
      let fl := newFlag fl (PrF.fc i v2) (PrV.dir v1 v2) (PrV.dir v2 v1)
      let fl := newFlag fl (PrF.fc i v2) (PrV.dir v2 v1) (PrV.v v2)
      let fl := newFlag fl (PrF.fc i v2) (PrV.v v2) (PrV.dir v2 v3)
      let fl := newFlag fl (PrF.fc i v2) (PrV.dir v2 v3) (PrV.dir v1 v2)
      (fl, v2, v3)) (fl, lastTwoN f)).1) fl
  let res := topoly (fun _ => none) (fun _ => none) none fl
  { res.1 with name := "p" ++ poly.name }

/-! ## Operator: dual -/

/-- Vertex names of `dual`: `c i` renders the canonical array-index string
`"{i}"` (the centroid of face `i`); `undef` is the JS string `"undefined"`,
the key produced when a missing adjacency-table entry (`undefined`) is used
as a property name. -/
inductive DuV where
  | undef
  | c (i : ℕ)
deriving DecidableEq

def duNumV : DuV → Option ℕ
  | .undef => none
  | .c i => some i

/-- One face's contribution to `dual`'s edge-to-face adjacency table
`face[v1]["v"+v2] = i`.  A vertex id out of range makes JS throw
(`face[v1]` is `undefined`); modelled by `none`. -/
def dualTableFace (i : ℕ) (f : List ℕ) (tbl : List (List (ℕ × ℕ))) :
    Option (List (List (ℕ × ℕ))) :=
  match f.getLast? with
  | none => some tbl
  | some last =>
    (f.foldlM (fun (acc : List (List (ℕ × ℕ)) × ℕ) v2 =>
      let tbl := acc.1
      let v1 := acc.2
      if v1 < tbl.length then
        some (tbl.set v1 (jsUpsert (tbl.getD v1 []) v2 i), v2)
      else none) (tbl, last)).map (fun acc => acc.1)

/-- One face's flag emission in `dual`:
`newFlag(v1, face[v2]["v"+v1], "{i}")`. -/
def dualFlagsFace (tbl : List (List (ℕ × ℕ))) (i : ℕ) (f : List ℕ)
    (fl : polyflag DuV ℕ) : polyflag DuV ℕ :=
  match f.getLast? with
  | none => fl
  | some last =>
    (f.foldl (fun (acc : polyflag DuV ℕ × ℕ) v2 =>
      let v1 := acc.2
      let fromName := match jsGet (tbl.getD v2 []) v1 with
        | some j => DuV.c j
        | none => DuV.undef
      (newFlag acc.1 v1 fromName (DuV.c i), v2)) (fl, last)).1

/-- One step of `dual`'s `sortF` reindexing loop, including the exact JS
crash conditions: iterating `undefined` (an out-of-range `poly.faces[...]`
read, or a dual face with fewer than 3 vertices) throws as soon as the
corresponding `for...of` loop is entered.  `intersect` returning `null`
writes to the non-index property `"null"`, invisible to the resulting array:
modelled as a skip. -/
def sortFStep (poly : polyhedron) (ws : List (ℕ × List ℕ)) (f : List ℕ) :
    Option (List (ℕ × List ℕ)) :=
  match f.head? with
  | none => none
  | some a =>
    if a < poly.faces.length then
      let set1 := poly.faces.getD a []
      let set2? := f.get? 1 |>.bind (fun b =>
        if b < poly.faces.length then some (poly.faces.getD b []) else none)
      match set2? with
      | none => if set1 = [] then some ws else none
      | some set2 =>
        let set3? := f.get? 2 |>.bind (fun c =>
          if c < poly.faces.length then some (poly.faces.getD c []) else none)
        match set3? with
        | none => if set1.any (fun s1 => decide (s1 ∈ set2)) then none else some ws
        | some set3 =>
          match intersect set1 set2 set3 with
          | some k => some (jsUpsert ws k f)
          | none => some ws
    else none

/-- The name prefixing of `dual` (`"d" + name`, or stripping a leading `d`). -/
def dualName (s : String) : String := if s.startsWith "d" then s.drop 1 else "d" ++ s

/-- `dual` from the source.  `none` models the JS `TypeError` crashes: a face
referencing a vertex id out of range (adjacency-table write to `undefined`),
or the `sortF` loop iterating an `undefined` face set (which happens exactly
when the topological dual has a face with fewer than 3 vertices, e.g. when
some input vertex has degree less than 3). -/
def dual (poly : polyhedron) : Option polyhedron := do
  let tbl ← poly.faces.enum.foldlM (fun tbl p => dualTableFace p.1 p.2 tbl)
    (List.replicate poly.vertices.length [])
  let centers := poly.centers
  let fl : polyflag DuV ℕ :=
    (List.range poly.faces.length).foldl
      (fun fl i => newV fl (DuV.c i) (centers.getD i zeroV)) {}
  let fl := poly.faces.enum.foldl (fun fl p => dualFlagsFace tbl p.1 p.2 fl) fl
  let res := topoly duNumV some (some DuV.undef) fl
  let dpoly := res.1
  let writes ← dpoly.faces.foldlM (sortFStep poly) []
  let maxk := (writes.map (fun w => w.1)).foldl max 0
  let sorted := if writes.isEmpty then [] else
    (List.range (maxk + 1)).map (fun k => (jsGet writes k).getD [])
  some { dpoly with faces := sorted, name := dualName poly.name }

/-! ## Operator: chamfer -/

/-- Vertex names of `chamfer`: `old v` is the raw number key `"{v}"`
(a canonical array index); `fv i v` renders `"{i}_{v}"`. -/
inductive ChV where
  | old (v : ℕ)
  | fv (i v : ℕ)
deriving DecidableEq

def chNumV : ChV → Option ℕ
  | .old v => some v
  | .fv _ _ => none

/-- Face names of `chamfer`: `orig i` is `"orig{i}"`, `hex a b` (with
`a < b` normalized at the call site) is `"hex{a}_{b}"`. -/
inductive ChF where
  | orig (i : ℕ)
  | hex (a b : ℕ)
deriving DecidableEq

/-- `chamfer` from the source (default `dist = 0.5` applied by callers). -/
def chamfer (poly : polyhedron) (dist : ℚ) : polyhedron :=
  let normals := poly.normals
  let fl := poly.faces.enum.foldl (fun (fl : polyflag ChV ChF) p =>
    let i := p.1
    let f := p.2
    match f.getLast? with
    | none => fl
    | some last =>
      (f.foldl (fun (acc : polyflag ChV ChF × ℕ) v2 =>
        let fl := acc.1
        let v1 := acc.2
        let fl := newV fl (ChV.old v2) (mult (1 + dist) (poly.vertices.getD v2 zeroV))
        let fl := newV fl (ChV.fv i v2)
          (add (poly.vertices.getD v2 zeroV) (mult (dist * (3 / 2)) (normals.getD i zeroV)))
        let fl := newFlag fl (ChF.orig i) (ChV.fv i v1) (ChV.fv i v2)
        let facename := if v1 < v2 then ChF.hex v1 v2 else ChF.hex v2 v1
        let fl := newFlag fl facename (ChV.old v2) (ChV.fv i v2)
        let fl := newFlag fl facename (ChV.fv i v2) (ChV.fv i v1)
        let fl := newFlag fl facename (ChV.fv i v1) (ChV.old v1)
        (fl, v2)) (fl, last)).1) {}
  let res := topoly chNumV (fun _ => none) none fl
  { res.1 with name := "c" ++ poly.name }

/-! ## Operator: whirl -/

/-- Vertex names of `whirl`: `v i` is `"v{i}"`, `dir a b` is `"{a}~{b}"`,
`cv i vtx` is `"center{i}~{vtx}"`. -/
inductive WhV where
  | v (i : ℕ)
  | dir (a b : ℕ)
  | cv (i vtx : ℕ)
deriving DecidableEq

/-- Face names of `whirl`: `fc i prev` is `"{i}f{prev}"`, `c i` is `"c{i}"`. -/
inductive WhF where
  | fc (i prev : ℕ)
  | c (i : ℕ)
deriving DecidableEq

/-- `whirl` from the source (the `n` parameter is read but never used by the
body; omitted). -/
def whirl (poly : polyhedron) : polyhedron :=
  let fl : polyflag WhV WhF :=
    (List.range poly.vertices.length).foldl
      (fun fl i => newV fl (WhV.v i) (unit (poly.vertices.getD i zeroV))) {}
  let centers := poly.centers
  let fl := poly.faces.enum.foldl (fun fl p =>
    let i := p.1
    let f := p.2
    (f.foldl (fun (acc : polyflag WhV WhF × ℕ × ℕ) v =>
      let fl := acc.1
      let v1 := acc.2.1
      let v2 := acc.2.2
      let v3 := v
      let v1_2 := oneThird (poly.vertices.getD v1 zeroV) (poly.vertices.getD v2 zeroV)
      let fl := newV fl (WhV.dir v1 v2) v1_2
      let fl := newV fl (WhV.cv i v1) (unit (oneThird (centers.getD i zeroV) v1_2))
      let fl := newFlag fl (WhF.fc i v1) (WhV.cv i v1) (WhV.dir v1 v2)
      let fl := newFlag fl (WhF.fc i v1) (WhV.dir v1 v2) (WhV.dir v2 v1)
      let fl := newFlag fl (WhF.fc i v1) (WhV.dir v2 v1) (WhV.v v2)
      let fl := newFlag fl (WhF.fc i v1) (WhV.v v2) (WhV.dir v2 v3)
      let fl := newFlag fl (WhF.fc i v1) (WhV.dir v2 v3) (WhV.cv i v2)
      let fl := newFlag fl (WhF.fc i v1) (WhV.cv i v2) (WhV.cv i v1)
      let fl := newFlag fl (WhF.c i) (WhV.cv i v1) (WhV.cv i v2)
      (fl, v2, v3)) (fl, lastTwoN f)).1) fl
  let res := topoly (fun _ => none) (fun _ => none) none fl
  { res.1 with name := "w" ++ poly.name }

/-! ## Operator: quinto -/

/-- Vertex names of `quinto`: `old v` is the raw number key `"{v}"`
(canonical array index), `mid a b` (normalized `a < b`) is `"{a}_{b}"`,
`inner i a b` is `"inner_{i}_{a}_{b}"`. -/
inductive QuV where
  | old (v : ℕ)
  | mid (a b : ℕ)
  | inner (i a b : ℕ)
deriving DecidableEq

def quNumV : QuV → Option ℕ
  | .old v => some v
  | _ => none

/-- `midName` normalization for `quinto`'s names. -/
def qmid (a b : ℕ) : ℕ × ℕ := if a < b then (a, b) else (b, a)

/-- Face names of `quinto`: `fv i v` is `"f{i}_{v}"`, `fin i` is `"f_in_{i}"`. -/
inductive QuF where
  | fv (i v : ℕ)
  | fin (i : ℕ)
deriving DecidableEq

/-- `quinto` from the source. -/
def quinto (poly : polyhedron) : polyhedron :=
  let fl := poly.faces.enum.foldl (fun (fl : polyflag QuV QuF) p =>
    let i := p.1
    let f := p.2
    let centroid := calcCentroid (f.map (fun idx => poly.vertices.getD idx zeroV))
    (f.foldl (fun (acc : polyflag QuV QuF × ℕ × ℕ) v3 =>
      let fl := acc.1
      let v1 := acc.2.1
      let v2 := acc.2.2
      let midpt := midpoint (poly.vertices.getD v1 zeroV) (poly.vertices.getD v2 zeroV)
      let innerpt := midpoint midpt centroid
      let m12 := qmid v1 v2
      let m23 := qmid v2 v3
      let fl := newV fl (QuV.mid m12.1 m12.2) midpt
      let fl := newV fl (QuV.inner i m12.1 m12.2) innerpt
      let fl := newV fl (QuV.old v2) (poly.vertices.getD v2 zeroV)
      let fl := newFlag fl (QuF.fv i v2) (QuV.inner i m12.1 m12.2) (QuV.mid m12.1 m12.2)
      let fl := newFlag fl (QuF.fv i v2) (QuV.mid m12.1 m12.2) (QuV.old v2)
      let fl := newFlag fl (QuF.fv i v2) (QuV.old v2) (QuV.mid m23.1 m23.2)
      let fl := newFlag fl (QuF.fv i v2) (QuV.mid m23.1 m23.2) (QuV.inner i m23.1 m23.2)
      let fl := newFlag fl (QuF.fv i v2) (QuV.inner i m23.1 m23.2) (QuV.inner i m12.1 m12.2)
      let fl := newFlag fl (QuF.fin i) (QuV.inner i m12.1 m12.2) (QuV.inner i m23.1 m23.2)
      (fl, v2, v3)) (fl, lastTwoN f)).1) {}
  let res := topoly quNumV (fun _ => none) none fl
  { res.1 with name := "q" ++ poly.name }

/-! ## Operator: hollow -/

/-- Vertex names of `hollow`: `v i` is `"v{i}"`, `down i` is `"downv{i}"`
(declared as `` `downv${i}` `` and referenced as `` `down${v1}` `` with
`v1 = "v"+i`, the same string), `fin i v` is `"fin{i}v{v}"`, `findown i v`
is `"findown{i}v{v}"`. -/
inductive HoV where
  | v (i : ℕ)
  | down (i : ℕ)
  | fin (i vtx : ℕ)
  | findown (i vtx : ℕ)
deriving DecidableEq

/-- Face names of `hollow`: `fa i prev` is `"{i}v{prev}"`, `sides i prev` is
`"sides{i}v{prev}"`, `bottom i prev` is `"bottom{i}v{prev}"`. -/
inductive HoF where
  | fa (i prev : ℕ)
  | sides (i prev : ℕ)
  | bottom (i prev : ℕ)
deriving DecidableEq

/-- `hollow` from the source (defaults `inset_dist = 0.5`,
`thickness = 0.2` applied by callers).  The dual normals come from
`dual(poly)`; on inputs where `dual` crashes JS would crash too, and the
model substitutes the empty polyhedron (no claim evaluates `hollow` there). -/
def hollow (poly : polyhedron) (inset_dist thickness : ℚ) : polyhedron :=
  let dualnormals := ((dual poly).getD {}).normals
  let normals := poly.normals
  let centers := poly.centers
  let fl : polyflag HoV HoF :=
    (List.range poly.vertices.length).foldl (fun fl i =>
      let p := poly.vertices.getD i zeroV
      let fl := newV fl (HoV.v i) p
      newV fl (HoV.down i) (add p (mult (-1 * thickness) (dualnormals.getD i zeroV)))) {}
  let fl := poly.faces.enum.foldl (fun fl p =>
    let i := p.1
    p.2.foldl (fun fl v =>
      let fl := newV fl (HoV.fin i v)
        (tween (poly.vertices.getD v zeroV) (centers.getD i zeroV) inset_dist)
      newV fl (HoV.findown i v)
        (add (tween (poly.vertices.getD v zeroV) (centers.getD i zeroV) inset_dist)
             (mult (-1 * thickness) (normals.getD i zeroV)))) fl) fl
  let fl := poly.faces.enum.foldl (fun fl p =>
    let i := p.1
    let f := p.2
    match f.getLast? with
    | none => fl
    | some last =>
      (f.foldl (fun (acc : polyflag HoV HoF × ℕ) v =>
        let fl := acc.1
        let prev := acc.2
        let fl := newFlag fl (HoF.fa i prev) (HoV.v prev) (HoV.v v)
        let fl := newFlag fl (HoF.fa i prev) (HoV.v v) (HoV.fin i v)
        let fl := newFlag fl (HoF.fa i prev) (HoV.fin i v) (HoV.fin i prev)
        let fl := newFlag fl (HoF.fa i prev) (HoV.fin i prev) (HoV.v prev)
        let fl := newFlag fl (HoF.sides i prev) (HoV.fin i prev) (HoV.fin i v)
        let fl := newFlag fl (HoF.sides i prev) (HoV.fin i v) (HoV.findown i v)
        let fl := newFlag fl (HoF.sides i prev) (HoV.findown i v) (HoV.findown i prev)
        let fl := newFlag fl (HoF.sides i prev) (HoV.findown i prev) (HoV.fin i prev)
        let fl := newFlag fl (HoF.bottom i prev) (HoV.down v) (HoV.down prev)
        let fl := newFlag fl (HoF.bottom i prev) (HoV.down prev) (HoV.findown i prev)
        let fl := newFlag fl (HoF.bottom i prev) (HoV.findown i prev) (HoV.findown i v)
        let fl := newFlag fl (HoF.bottom i prev) (HoV.findown i v) (HoV.down v)
        (fl, v)) (fl, last)).1) fl
  let res := topoly (fun _ => none) (fun _ => none) none fl
  { res.1 with name := "H" ++ poly.name }

/-! ## Operator: perspectiva1 -/

/-- Vertex names of `perspectiva1`: `v i` is `"v{i}"`, `dir a b` is the
directed stellated-point name `"v{a}~v{b}"`. -/
inductive PeV where
  | v (i : ℕ)
  | dir (a b : ℕ)
deriving DecidableEq

/-- Face names of `perspectiva1`: `inn i` is `"in{i}"`, `fcorner i v` is
`"f{i}v{v}"`, `fedge a b` is `"fv{a}~v{b}"`. -/
inductive PeF where
  | inn (i : ℕ)
  | fcorner (i v : ℕ)
  | fedge (a b : ℕ)
deriving DecidableEq

/-- `perspectiva1` from the source. -/
def perspectiva1 (poly : polyhedron) : polyhedron :=
  let centers := poly.centers
  let fl : polyflag PeV PeF :=
    (List.range poly.vertices.length).foldl
      (fun fl i => newV fl (PeV.v i) (poly.vertices.getD i zeroV)) {}
  let fl := poly.faces.enum.foldl (fun fl p =>
    let i := p.1
    let f := p.2
    let a0 := f.getD (f.length - 2) 0
    let b0 := f.getD (f.length - 1) 0
    (f.foldl (fun (acc : polyflag PeV PeF × ℕ × ℕ) v =>
      let fl := acc.1
      let a := acc.2.1
      let b := acc.2.2
      let c := v
      let vert1 := poly.vertices.getD a zeroV
      let vert2 := poly.vertices.getD b zeroV
      let fl := newV fl (PeV.dir a b) (midpoint (midpoint vert1 vert2) (centers.getD i zeroV))
      let fl := newFlag fl (PeF.inn i) (PeV.dir a b) (PeV.dir b c)
      let fl := newFlag fl (PeF.fcorner i b) (PeV.dir b c) (PeV.dir a b)
      let fl := newFlag fl (PeF.fcorner i b) (PeV.dir a b) (PeV.v b)
      let fl := newFlag fl (PeF.fcorner i b) (PeV.v b) (PeV.dir b c)
      let fl := newFlag fl (PeF.fedge a b) (PeV.v a) (PeV.dir b a)
      let fl := newFlag fl (PeF.fedge a b) (PeV.dir b a) (PeV.dir a b)
      let fl := newFlag fl (PeF.fedge a b) (PeV.dir a b) (PeV.v a)
      (fl, b, c)) (fl, a0, b0)).1) fl
  let res := topoly (fun _ => none) (fun _ => none) none fl
  { res.1 with name := "P" ++ poly.name }

/-! ## Operator: trisub (bypasses the flag machinery) -/

/-- The grid-point generation pass of `trisub`: for each (triangular) face,
the `(n+1)(n+2)/2` barycentric grid points, in the source's `(i, j)` loop
order, together with the `vmap` from grid keys `"v{fn}-{i}-{j}"` (modelled as
triples) to positions in the flat `newVs` list. -/
def trisubGrid (poly : polyhedron) (n : ℕ) :
    List Vec3 × List ((ℕ × ℕ × ℕ) × ℕ) :=
  let st := poly.faces.enum.foldl
    (fun (st : List Vec3 × List ((ℕ × ℕ × ℕ) × ℕ)) p =>
      let fn := p.1
      let f := p.2
      let i1 := f.getD (f.length - 3) 0
      let i2 := f.getD (f.length - 2) 0
      let i3 := f.getD (f.length - 1) 0
      let v1 := poly.vertices.getD i1 zeroV
      let v21 := sub (poly.vertices.getD i2 zeroV) v1
      let v31 := sub (poly.vertices.getD i3 zeroV) v1
      (List.range (n + 1)).foldl (fun st (i : ℕ) =>
        (List.range (n + 1 - i)).foldl (fun st (j : ℕ) =>
          let v := add (add v1 (mult ((i : ℚ) * 1 / n) v21)) (mult ((j : ℚ) * 1 / n) v31)
          (st.1 ++ [v], st.2 ++ [(((fn, i, j) : ℕ × ℕ × ℕ), st.1.length)])) st) st)
    ([], [])
  st

/-- The epsilon-merge deduplication pass of `trisub`
(`EPSILON_CLOSE = 1.0e-8`): returns the unique vertex list and the map from
redundant positions to unique positions. -/
def trisubUniq (newVs : List Vec3) : List Vec3 × List (ℕ × ℕ) :=
  let st := newVs.enum.foldl
    (fun (st : List Vec3 × ℕ × List (ℕ × ℕ)) iv =>
      let i := iv.1
      let v := iv.2
      if (jsGet st.2.2 i).isSome then st
      else
        let umap := jsUpsert st.2.2 i st.2.1
        let umap := (List.range' (i + 1) (newVs.length - (i + 1))).foldl
          (fun umap j =>
            if mag (sub v (newVs.getD j zeroV)) < 1 / 10 ^ 8 then
              jsUpsert umap j st.2.1
            else umap) umap
        (st.1 ++ [v], st.2.1 + 1, umap)) ([], 0, [])
  (st.1, st.2.2)

/-- `trisub` from the source (default `n = 2` applied by callers): no-op on
meshes with any non-triangular face; otherwise a barycentric grid is built
per face and deduplicated by epsilon-proximity instead of symbolic names. -/
def trisub (poly : polyhedron) (n : ℕ) : polyhedron :=
  if poly.faces.any (fun f => f.length ≠ 3) then poly
  else
    let g := trisubGrid poly n
    let newVs := g.1
    let vmap := g.2
    let u := trisubUniq newVs
    let uniqVs := u.1
    let uniqmap := u.2
    let um := fun (x : ℕ) => (jsGet uniqmap x).getD 0
    let vm := fun (k : ℕ × ℕ × ℕ) => (jsGet vmap k).getD 0
    let faces := (List.range poly.faces.length).foldl (fun faces fn =>
      let faces := (List.range n).foldl (fun faces i =>
        (List.range (n - i)).foldl (fun faces j =>
          faces ++ [[um (vm (fn, i, j)), um (vm (fn, i + 1, j)), um (vm (fn, i, j + 1))]])
          faces) faces
      (List.range' 1 (n - 1)).foldl (fun faces i =>
        (List.range (n - i)).foldl (fun faces j =>
          faces ++ [[um (vm (fn, i, j)), um (vm (fn, i, j + 1)), um (vm (fn, i - 1, j + 1))]])
          faces) faces) []
    { name := "u" ++ toString n ++ poly.name, faces := faces, vertices := uniqVs }

/-! ## Canonicalization subsystem -/

/-- `tangentify` from the source: one damped push of every edge toward
tangency with the unit sphere (`STABILITY_FACTOR = 0.1`). -/
def tangentify (vertices : List Vec3) (edges : List (ℕ × ℕ)) : List Vec3 :=
  edges.foldl (fun newVs e =>
    let t := tangentPoint (newVs.getD e.1 zeroV) (newVs.getD e.2 zeroV)
    let c := mult ((1 / 10) * 1 / 2 * (1 - jsqrt (dot t t))) t
    let newVs := newVs.set e.1 (add (newVs.getD e.1 zeroV) c)
    newVs.set e.2 (add (newVs.getD e.2 zeroV) c)) vertices

/-- `recenter` from the source: subtract the centroid of all edge tangent
points. -/
def recenter (vertices : List Vec3) (edges : List (ℕ × ℕ)) : List Vec3 :=
  let edgecenters := edges.map (fun e =>
    tangentPoint (vertices.getD e.1 zeroV) (vertices.getD e.2 zeroV))
  let polycenter := mult (1 / (edges.length : ℚ)) (edgecenters.foldl add zeroV)
  vertices.map (fun x => sub x polycenter)

/-- `sphere` from the source: project every vertex onto the unit sphere. -/
def sphere (vertices : List Vec3) : List Vec3 :=
  vertices.map (fun x => (x.1 / mag x, x.2.1 / mag x, x.2.2 / mag x))

/-- `planarize` from the source: damped per-face push of each vertex toward
the face plane (`STABILITY_FACTOR = 0.1`), normal sign-corrected away from
the origin. -/
def planarize (vertices : List Vec3) (faces : List (List ℕ)) : List Vec3 :=
  faces.foldl (fun newVs f =>
    let coords := f.map (fun v => vertices.getD v zeroV)
    let n0 := normal coords
    let c := calcCentroid coords
    let n := if dot n0 c < 0 then mult (-1) n0 else n0
    f.foldl (fun newVs v =>
      newVs.set v (add (newVs.getD v zeroV)
        (mult (dot (mult (1 / 10) n) (sub c (vertices.getD v zeroV))) n))) newVs)
    vertices

/-- The state of `canonicalize`'s iteration: current vertices, the last
computed `maxChange`, and the number of executed relaxation passes. -/
structure CanonState where
  newVs : List Vec3
  maxChange : ℚ
  passes : ℕ
deriving DecidableEq, Repr

/-- One body execution of `canonicalize`'s loop: copy the vertices, run
tangentify / recenter / planarize, compute `maxChange` (`_.max` of the
per-vertex displacement magnitudes; JS `-Infinity` on a vertex-free
polyhedron is modelled as `0`, which breaks the loop just the same). -/
def canonStep (faces : List (List ℕ)) (edges : List (ℕ × ℕ)) (st : CanonState) :
    CanonState :=
  let newVs1 := planarize (recenter (tangentify st.newVs edges) edges) faces
  { newVs := newVs1,
    maxChange := ((newVs1.zip st.newVs).map (fun xy => mag (sub xy.1 xy.2))).foldl max 0,
    passes := st.passes + 1 }

/-- The `for (let i = 0; i <= Niter; i++)` loop of `canonicalize`; `fuel` is
the number of loop indices left (`Niter + 1` at entry), and the loop breaks
early as soon as a pass moves no vertex by `1e-8` or more. -/
def canonLoop (faces : List (List ℕ)) (edges : List (ℕ × ℕ)) :
    ℕ → CanonState → CanonState
  | 0, st => st
  | fuel + 1, st =>
    let st1 := canonStep faces edges st
    if st1.maxChange < 1 / 10 ^ 8 then st1 else canonLoop faces edges fuel st1

/-- The observable outcome of `canonicalize`: the returned polyhedron, the
number of relaxation passes executed, and the last `|deltaV|`, which the
source always reports on the console
(`"[canonicalization done, last |deltaV|=...]"`). -/
structure CanonResult where
  poly : polyhedron
  passes : ℕ
  lastMaxChange : ℚ
deriving DecidableEq, Repr

/-- `canonicalize(poly, Niter)` from the source (`Niter` falsy, i.e. `0`,
defaults to `1`). -/
def canonicalize (poly : polyhedron) (Niter : ℕ) : CanonResult :=
  let N := if Niter = 0 then 1 else Niter
  let edges := poly.edges
  let st := canonLoop poly.faces edges (N + 1)
    { newVs := poly.vertices, maxChange := 1, passes := 0 }
  { poly := { vertices := st.newVs, faces := poly.faces, name := poly.name },
    passes := st.passes,
    lastMaxChange := st.maxChange }

/-- `reciprocalC` from the source.  The body iterates
`for (let c of centers) { c = mult(1.0/dot(c,c), c); }`: the assignment
rebinds the loop variable `c` only and never writes back into the array, so
the function returns the face centers unchanged — its own doc comment
("get the spherical reciprocals of face centers") notwithstanding. -/
def reciprocalC (poly : polyhedron) : List Vec3 :=
  poly.centers

/-- The rescaling `reciprocalC`'s comment and the specification describe:
each face center reflected in the unit sphere.  Stated for comparison with
what the code actually computes. -/
def reciprocalCSpec (poly : polyhedron) : List Vec3 :=
  poly.centers.map (fun c => mult (1 / dot c c) c)

/-- `reciprocalN` from the source: per face, the reciprocal of the face
plane's origin-foot, scaled by `(1 + avgEdgeDist)/2`. -/
def reciprocalN (poly : polyhedron) : List Vec3 :=
  poly.faces.map (fun f =>
    let start := (poly.vertices.getD (f.getD (f.length - 2) 0) zeroV,
                  poly.vertices.getD (f.getD (f.length - 1) 0) zeroV)
    let acc := f.foldl
      (fun (acc : Vec3 × Vec3 × ℚ × (Vec3 × Vec3)) v3i =>
        let v3 := poly.vertices.getD v3i zeroV
        let v1 := acc.2.2.2.1
        let v2 := acc.2.2.2.2
        (add acc.1 v3,
         add acc.2.1 (orthogonal v1 v2 v3),
         acc.2.2.1 + edgeDist v1 v2,
         (v2, v3)))
      (zeroV, zeroV, 0, start)
    let centroid := mult (1 / (f.length : ℚ)) acc.1
    let normalV := unit acc.2.1
    let avgEdgeDist := acc.2.2.1 / (f.length : ℚ)
    mult ((1 + avgEdgeDist) / 2) (reciprocal (mult (dot centroid normalV) normalV)))

/-- One iteration of `canonicalXYZ`'s loop:
`dpoly.vertices = reciprocalN(poly); poly.vertices = reciprocalN(dpoly)`. -/
def canonicalXYZStep (st : polyhedron × polyhedron) : polyhedron × polyhedron :=
  let d := { st.2 with vertices := reciprocalN st.1 }
  ({ st.1 with vertices := reciprocalN d }, d)

/-- `canonicalXYZ(poly, nIterations)` from the source (`nIterations` falsy
defaults to `1`): alternate `dpoly.vertices = reciprocalN(poly)` and
`poly.vertices = reciprocalN(dpoly)`; `none` when `dual` crashes (JS would
throw there). -/
def canonicalXYZ (poly : polyhedron) (nIterations : ℕ) : Option polyhedron := do
  let N := if nIterations = 0 then 1 else nIterations
  let dpoly ← dual poly
  let st := (List.range N).foldl (fun st _ => canonicalXYZStep st) (poly, dpoly)
  some { vertices := st.1.vertices, faces := st.1.faces, name := st.1.name }

/-- One iteration of `adjustXYZ`'s loop (with `reciprocalC`). -/
def adjustXYZStep (st : polyhedron × polyhedron) : polyhedron × polyhedron :=
  let d := { st.2 with vertices := reciprocalC st.1 }
  ({ st.1 with vertices := reciprocalC d }, d)

/-- `adjustXYZ(poly, nIterations)` from the source: the same alternation with
`reciprocalC`. -/
def adjustXYZ (poly : polyhedron) (nIterations : ℕ) : Option polyhedron := do
  let N := if nIterations = 0 then 1 else nIterations
  let dpoly ← dual poly
  let st := (List.range N).foldl (fun st _ => adjustXYZStep st) (poly, dpoly)
  some { vertices := st.1.vertices, faces := st.1.faces, name := st.1.name }

/-- `spherize` from the source. -/
def spherize (poly : polyhedron) : polyhedron :=
  { vertices := sphere poly.vertices, faces := poly.faces, name := poly.name }

/-! ## Generic lemmas about the JS map model -/

section JsMapLemmas

variable {K A : Type} [DecidableEq K]

theorem find_isSome_iff_mem_fst (l : List (K × A)) (k : K) :
    (l.find? (fun kv => kv.1 = k)).isSome ↔ k ∈ l.map Prod.fst := by
  rw [List.find?_isSome]
  constructor
  · rintro ⟨kv, hmem, hp⟩
    exact List.mem_map.mpr ⟨kv, hmem, by simpa using hp⟩
  · intro h
    obtain ⟨kv, hmem, he⟩ := List.mem_map.mp h
    exact ⟨kv, hmem, by simp [he]⟩

theorem jsUpsert_map_fst (l : List (K × A)) (k : K) (a : A) :
    (jsUpsert l k a).map Prod.fst =
      if k ∈ l.map Prod.fst then l.map Prod.fst else l.map Prod.fst ++ [k] := by
  by_cases h : k ∈ l.map Prod.fst
  · have hs : (l.find? (fun kv => kv.1 = k)).isSome := (find_isSome_iff_mem_fst l k).mpr h
    unfold jsUpsert
    rw [if_pos hs, if_pos h, List.map_map]
    refine List.map_congr_left ?_
    intro kv _
    by_cases h2 : kv.1 = k <;> simp [h2]
  · have hs : ¬ (l.find? (fun kv => kv.1 = k)).isSome = true := fun hs =>
      h ((find_isSome_iff_mem_fst l k).mp hs)
    unfold jsUpsert
    rw [if_neg hs, if_neg h, List.map_append]
    rfl

theorem mem_jsUpsert (l : List (K × A)) (k : K) (a : A) :
    ∀ kv ∈ jsUpsert l k a, kv = (k, a) ∨ kv ∈ l := by
  intro kv h
  unfold jsUpsert at h
  by_cases hs : (l.find? (fun kv => kv.1 = k)).isSome
  · rw [if_pos hs] at h
    obtain ⟨kv0, hkv0, he⟩ := List.mem_map.mp h
    by_cases h2 : kv0.1 = k
    · left
      rw [← he]
      simp [h2]
    · right
      rw [← he]
      simpa [h2] using hkv0
  · rw [if_neg hs] at h
    rcases List.mem_append.mp h with h1 | h1
    · exact Or.inr h1
    · exact Or.inl (List.mem_singleton.mp h1)

theorem jsUpsert_key_mem (l : List (K × A)) (k : K) (a : A) :
    k ∈ (jsUpsert l k a).map Prod.fst := by
  rw [jsUpsert_map_fst]
  by_cases h : k ∈ l.map Prod.fst <;> simp [h]

theorem jsUpsert_keys_subset (l : List (K × A)) (k : K) (a : A) :
    ∀ x ∈ l.map Prod.fst, x ∈ (jsUpsert l k a).map Prod.fst := by
  intro x hx
  rw [jsUpsert_map_fst]
  by_cases h : k ∈ l.map Prod.fst <;> simp [h, hx]

theorem jsUpsert_keys_nodup (l : List (K × A)) (k : K) (a : A)
    (h : (l.map Prod.fst).Nodup) : ((jsUpsert l k a).map Prod.fst).Nodup := by
  rw [jsUpsert_map_fst]
  by_cases hm : k ∈ l.map Prod.fst
  · simpa [hm] using h
  · simp only [hm, if_false]
    exact h.append (List.nodup_singleton k)
      (fun x hx hk => hm ((List.mem_singleton.mp hk) ▸ hx))

end JsMapLemmas

/-! ## The edge map: claim C10 -/

/-- The invariant threaded through `polyhedron.edges`' fold: keys are nodup,
every stored value is keyed by its own canonical form, and every stored value
satisfies `S` (instantiated with membership in some face's edge list). -/
def EdgeInv (S : ℕ × ℕ → Prop) (u : List ((ℕ × ℕ) × (ℕ × ℕ))) : Prop :=
  (u.map Prod.fst).Nodup ∧ ∀ kv ∈ u, kv.1 = ekey kv.2 ∧ S kv.2

theorem edgesFold_invariant (S : ℕ × ℕ → Prop) :
    ∀ (es : List (ℕ × ℕ)) (u : List ((ℕ × ℕ) × (ℕ × ℕ))),
      EdgeInv S u → (∀ e ∈ es, S e) →
      EdgeInv S (es.foldl (fun u e => jsUpsert u (ekey e) e) u) ∧
      (∀ x ∈ u.map Prod.fst,
        x ∈ (es.foldl (fun u e => jsUpsert u (ekey e) e) u).map Prod.fst) ∧
      (∀ e ∈ es,
        ekey e ∈ (es.foldl (fun u e => jsUpsert u (ekey e) e) u).map Prod.fst) := by
  intro es
  induction es with
  | nil => exact fun u hu _ => ⟨hu, fun x hx => hx, by simp⟩
  | cons e es ih =>
    intro u hu hS
    have hu1 : EdgeInv S (jsUpsert u (ekey e) e) := by
      constructor
      · exact jsUpsert_keys_nodup _ _ _ hu.1
      · intro kv hkv
        rcases mem_jsUpsert _ _ _ kv hkv with h | h
        · rw [h]
          exact ⟨rfl, hS e (by simp)⟩
        · exact hu.2 kv h
    obtain ⟨hinv, hmono, hcov⟩ := ih (jsUpsert u (ekey e) e) hu1
      (fun e' he' => hS e' (List.mem_cons_of_mem _ he'))
    refine ⟨by simpa using hinv, ?_, ?_⟩
    · intro x hx
      simpa using hmono x (jsUpsert_keys_subset _ _ _ x hx)
    · intro e' he'
      rcases List.mem_cons.mp he' with h | h
      · subst h
        simpa using hmono (ekey e') (jsUpsert_key_mem _ _ _)
      · simpa using hcov e' h

theorem edgesFold_keys_mono :
    ∀ (es : List (ℕ × ℕ)) (u : List ((ℕ × ℕ) × (ℕ × ℕ))) (x : ℕ × ℕ),
      x ∈ u.map Prod.fst →
      x ∈ (es.foldl (fun u e => jsUpsert u (ekey e) e) u).map Prod.fst := by
  intro es
  induction es with
  | nil => exact fun u x hx => hx
  | cons e es ih =>
    intro u x hx
    simpa using ih (jsUpsert u (ekey e) e) x (jsUpsert_keys_subset _ _ _ x hx)

theorem edgesFoldFaces_keys_mono :
    ∀ (fss : List (List (ℕ × ℕ))) (u : List ((ℕ × ℕ) × (ℕ × ℕ))) (x : ℕ × ℕ),
      x ∈ u.map Prod.fst →
      x ∈ (fss.foldl (fun u es => es.foldl (fun u e => jsUpsert u (ekey e) e) u) u).map
        Prod.fst := by
  intro fss
  induction fss with
  | nil => exact fun u x hx => hx
  | cons es fss ih =>
    intro u x hx
    simpa using ih _ x (edgesFold_keys_mono es u x hx)

theorem edgesFoldFaces_invariant (S : ℕ × ℕ → Prop) :
    ∀ (fss : List (List (ℕ × ℕ))) (u : List ((ℕ × ℕ) × (ℕ × ℕ))),
      EdgeInv S u → (∀ es ∈ fss, ∀ e ∈ es, S e) →
      EdgeInv S (fss.foldl (fun u es => es.foldl (fun u e => jsUpsert u (ekey e) e) u) u) ∧
      (∀ es ∈ fss, ∀ e ∈ es,
        ekey e ∈ (fss.foldl (fun u es => es.foldl (fun u e => jsUpsert u (ekey e) e) u) u).map
          Prod.fst) := by
  intro fss
  induction fss with
  | nil => exact fun u hu _ => ⟨hu, by simp⟩
  | cons es fss ih =>
    intro u hu hS
    obtain ⟨hinv1, _, hcov1⟩ := edgesFold_invariant S es u hu (hS es (by simp))
    obtain ⟨hinv, hcov⟩ := ih _ hinv1 (fun es' hes' => hS es' (List.mem_cons_of_mem _ hes'))
    refine ⟨by simpa using hinv, ?_⟩
    intro es' hes' e he
    rcases List.mem_cons.mp hes' with h | h
    · subst h
      simpa using edgesFoldFaces_keys_mono fss _ (ekey e) (hcov1 e he)
    · simpa using hcov es' h e he

/-- C10: for every polyhedron, `edges()` returns each undirected edge exactly
once — no two returned edges have the same canonical `(min,max)` key, every
returned edge is a directed edge of some face, and every directed edge of
every face is represented by exactly the one entry carrying its canonical
key — regardless of how many faces reference the edge. -/
theorem C10_edges_unique (p : polyhedron) :
    (p.edges.map ekey).Nodup ∧
    (∀ e ∈ p.edges, ∃ f ∈ p.faces, e ∈ faceToEdges f) ∧
    (∀ f ∈ p.faces, ∀ e ∈ faceToEdges f, ekey e ∈ p.edges.map ekey) := by
  have hS : ∀ es ∈ p.faces.map faceToEdges, ∀ e ∈ es,
      ∃ f ∈ p.faces, e ∈ faceToEdges f := by
    intro es hes e he
    obtain ⟨f, hf, hfe⟩ := List.mem_map.mp hes
    exact ⟨f, hf, hfe ▸ he⟩
  obtain ⟨hinv, hcov⟩ := edgesFoldFaces_invariant
    (fun e => ∃ f ∈ p.faces, e ∈ faceToEdges f)
    (p.faces.map faceToEdges) [] ⟨List.nodup_nil, by simp⟩ hS
  have hU : p.edges =
      ((p.faces.map faceToEdges).foldl
        (fun u es => es.foldl (fun u e => jsUpsert u (ekey e) e) u) []).map
        (fun kv => kv.2) := rfl
  have hkeys : p.edges.map ekey =
      ((p.faces.map faceToEdges).foldl
        (fun u es => es.foldl (fun u e => jsUpsert u (ekey e) e) u) []).map
        Prod.fst := by
    rw [hU, List.map_map]
    refine List.map_congr_left ?_
    intro kv hkv
    exact ((hinv.2 kv hkv).1).symm
  refine ⟨hkeys ▸ hinv.1, ?_, ?_⟩
  · intro e he
    rw [hU] at he
    obtain ⟨kv, hkv, he2⟩ := List.mem_map.mp he
    exact he2 ▸ (hinv.2 kv hkv).2
  · intro f hf e he
    rw [hkeys]
    exact hcov (faceToEdges f) (List.mem_map.mpr ⟨f, hf, rfl⟩) e he

/-- Witness for C10: applied to the tetrahedron seed and the directed edge
`(2,0)` of its first face. -/
theorem C10_edges_unique_witness :
    (tetrahedron.edges.map ekey).Nodup ∧
    ekey (2, 0) ∈ tetrahedron.edges.map ekey :=
  ⟨(C10_edges_unique tetrahedron).1,
   (C10_edges_unique tetrahedron).2.2 [0, 1, 2] (by decide) (2, 0) (by decide)⟩

/-! ## Traversal lemmas and claim C4 -/

theorem walkGo_zero {VN : Type} [DecidableEq VN] (m : List (VN × VN))
    (idx : VN → Option ℕ) (uk : Option VN) (v0 : VN) (v : Option VN) :
    walkGo m idx uk v0 v 0 =
      if v = some v0 then ([], false)
      else ([(((keyOf uk v).bind idx)).getD 0], true) := by
  rw [walkGo]

theorem walkGo_succ {VN : Type} [DecidableEq VN] (m : List (VN × VN))
    (idx : VN → Option ℕ) (uk : Option VN) (v0 : VN) (v : Option VN) (fuel : ℕ) :
    walkGo m idx uk v0 v (fuel + 1) =
      if v = some v0 then ([], false)
      else ((((keyOf uk v).bind idx)).getD 0 ::
              (walkGo m idx uk v0 (topolyStep m uk v) fuel).1,
            (walkGo m idx uk v0 (topolyStep m uk v) fuel).2) := by
  rw [walkGo]

theorem walkGo_length_le {VN : Type} [DecidableEq VN] (m : List (VN × VN))
    (idx : VN → Option ℕ) (uk : Option VN) (v0 : VN) :
    ∀ (fuel : ℕ) (v : Option VN), (walkGo m idx uk v0 v fuel).1.length ≤ fuel + 1 := by
  intro fuel
  induction fuel with
  | zero =>
    intro v
    rw [walkGo_zero]
    by_cases h : v = some v0 <;> simp [h]
  | succ fuel ih =>
    intro v
    rw [walkGo_succ]
    by_cases h : v = some v0
    · simp [h]
    · simpa [h] using Nat.succ_le_succ (ih (topolyStep m uk v))

theorem walkGo_err_iff {VN : Type} [DecidableEq VN] (m : List (VN × VN))
    (idx : VN → Option ℕ) (uk : Option VN) (v0 : VN) :
    ∀ (fuel : ℕ) (v : Option VN),
      (walkGo m idx uk v0 v fuel).2 = true ↔
        ∀ t ≤ fuel, (topolyStep m uk)^[t] v ≠ some v0 := by
  intro fuel
  induction fuel with
  | zero =>
    intro v
    rw [walkGo_zero]
    by_cases h : v = some v0
    · simp only [h, if_true]
      constructor
      · intro hF
        exact absurd hF (by simp)
      · intro hR
        exact absurd h (by simpa using hR 0 (Nat.le_refl 0))
    · simp only [h, if_false]
      constructor
      · intro _ t ht
        interval_cases t
        simpa using h
      · intro _
        trivial
  | succ fuel ih =>
    intro v
    rw [walkGo_succ]
    by_cases h : v = some v0
    · simp only [h, if_true]
      constructor
      · intro hF
        exact absurd hF (by simp)
      · intro hR
        exact absurd h (by simpa using hR 0 (Nat.zero_le _))
    · simp only [h, if_false]
      rw [ih (topolyStep m uk v)]
      constructor
      · intro hR t ht
        match t with
        | 0 => simpa using h
        | t + 1 =>
          rw [Function.iterate_succ_apply]
          exact hR t (Nat.le_of_succ_le_succ ht)
      · intro hR t ht
        have := hR (t + 1) (Nat.succ_le_succ ht)
        rwa [Function.iterate_succ_apply] at this

theorem topolyStep_some {VN : Type} [DecidableEq VN] (m : List (VN × VN))
    (uk : Option VN) (x : VN) : topolyStep m uk (some x) = jsGet m x := by
  simp [topolyStep, keyOf]

theorem walkFace_length_le {VN : Type} [DecidableEq VN] (m : List (VN × VN))
    (idx : VN → Option ℕ) (uk : Option VN) (v0 : VN) :
    (walkFace m idx uk v0).1.length ≤ MAX_FACE_SIDEDNESS + 2 := by
  unfold walkFace
  simpa using Nat.succ_le_succ (walkGo_length_le m idx uk v0 MAX_FACE_SIDEDNESS _)

theorem walkFace_err_iff {VN : Type} [DecidableEq VN] (m : List (VN × VN))
    (idx : VN → Option ℕ) (uk : Option VN) (v0 : VN) :
    (walkFace m idx uk v0).2 = true ↔
      ∀ t, 1 ≤ t → t ≤ MAX_FACE_SIDEDNESS + 1 →
        (topolyStep m uk)^[t] (some v0) ≠ some v0 := by
  unfold walkFace
  rw [← topolyStep_some m uk v0]
  simp only []
  rw [walkGo_err_iff]
  constructor
  · intro h t h1 h2
    have h3 := h (t - 1) (by omega)
    rw [← Function.iterate_succ_apply] at h3
    have h4 : (t - 1).succ = t := by omega
    rwa [h4] at h3
  · intro h t ht
    have h3 := h (t + 1) (by omega) (by omega)
    rwa [Function.iterate_succ_apply] at h3

/-- C4 (amended): `topoly` is total, each assembled face holds at most
`MAX_FACE_SIDEDNESS + 2 = 1002` vertex entries (the loop follows the
successor map at most 1002 times), and for every face the
`"Bad flag spec"` abort+report fires exactly when the traversal fails to
return to its starting vertex within `MAX_FACE_SIDEDNESS + 1 = 1001` steps —
in which case the face's identity appears in the report log; conversely every
reported identity is one of the assembled faces' names.  (A successor map
that closes into a cycle early without covering all its declared vertices is
silently truncated, never reported: see the counterexample.) -/
theorem C4_topoly_bound_and_reporting {VN FN : Type} [DecidableEq VN] [DecidableEq FN]
    (numV : VN → Option ℕ) (numF : FN → Option ℕ) (undefKey : Option VN)
    (fl : polyflag VN FN) :
    (∀ face ∈ (topoly numV numF undefKey fl).1.faces,
      face.length ≤ MAX_FACE_SIDEDNESS + 2) ∧
    (∀ ff ∈ jsOrder numF fl.flags, ∀ kv, (jsOrder numV ff.2).head? = some kv →
      (((walkFace ff.2 (topolyIdx numV fl) undefKey kv.2).2 = true ↔
        ∀ t, 1 ≤ t → t ≤ MAX_FACE_SIDEDNESS + 1 →
          (topolyStep ff.2 undefKey)^[t] (some kv.2) ≠ some kv.2) ∧
       ((walkFace ff.2 (topolyIdx numV fl) undefKey kv.2).2 = true →
         ff.1 ∈ (topoly numV numF undefKey fl).2))) ∧
    (∀ fn ∈ (topoly numV numF undefKey fl).2,
      ∃ ff ∈ jsOrder numF fl.flags, ff.1 = fn) := by
  refine ⟨?_, ?_, ?_⟩
  · intro face hface
    obtain ⟨r, hr, hface2⟩ := List.mem_map.mp hface
    obtain ⟨ff, _, hr2⟩ := List.mem_map.mp hr
    rcases hh : (jsOrder numV ff.2).head? with _ | kv
    · rw [← hr2, hh] at hface2
      simp only [← hface2]
      simp [MAX_FACE_SIDEDNESS]
    · rw [← hr2, hh] at hface2
      simp only [← hface2]
      exact walkFace_length_le _ _ _ _
  · intro ff hff kv hkv
    refine ⟨walkFace_err_iff _ _ _ _, ?_⟩
    intro herr
    have hmem : (ff.1, walkFace ff.2 (topolyIdx numV fl) undefKey kv.2) ∈
        (jsOrder numF fl.flags).map (fun ff =>
          match (jsOrder numV ff.2).head? with
          | none => (ff.1, ([(((keyOf undefKey none).bind (topolyIdx numV fl))).getD 0], false))
          | some kv => (ff.1, walkFace ff.2 (topolyIdx numV fl) undefKey kv.2)) := by
      refine List.mem_map.mpr ⟨ff, hff, ?_⟩
      rw [hkv]
    refine List.mem_map.mpr ⟨(ff.1, walkFace ff.2 (topolyIdx numV fl) undefKey kv.2), ?_, rfl⟩
    exact List.mem_filter.mpr ⟨hmem, by simpa using herr⟩
  · intro fn hfn
    obtain ⟨r, hr, hfn2⟩ := List.mem_map.mp hfn
    obtain ⟨ff, hff, _⟩ := List.mem_map.mp (List.mem_filter.mp hr).1
    exact ⟨ff, hff, by
      rename_i hr2
      rw [← hfn2, ← hr2]
      rcases (jsOrder numV ff.2).head? with _ | kv <;> rfl⟩

/-- A flag set an operator bug could produce: one face name `0` whose
successor map consists of two disjoint 2-cycles (`10 ↔ 11` and `12 ↔ 13`);
the names are opaque symbols (no canonical array-index rendering). -/
def badFlags : polyflag ℕ ℕ :=
  let fl : polyflag ℕ ℕ := {}
  let fl := newV fl 10 zeroV
  let fl := newV fl 11 zeroV
  let fl := newV fl 12 zeroV
  let fl := newV fl 13 zeroV
  let fl := newFlag fl 0 10 11
  let fl := newFlag fl 0 11 10
  let fl := newFlag fl 0 12 13
  let fl := newFlag fl 0 13 12
  fl

/-- C4 counterexample: on a face whose successor map does **not** close into
a single cycle (two disjoint 2-cycles over its four declared vertices), the
traversal closes early after visiting only two vertices, the face is silently
truncated, and no topology error is reported (empty report log) — refuting
the claim that any face whose successor map does not close into a single
cycle within the bound is aborted and reported. -/
theorem C4_counterexample_silent_truncation :
    (topoly (fun _ => none) (fun _ => none) none badFlags).2 = [] ∧
    (topoly (fun _ => none) (fun _ => none) none badFlags).1.faces = [[1, 0]] ∧
    (jsGet badFlags.flags 0).map List.length = some 4 := by
  decide

/-- Witness for C4: the bound instantiated on the concrete flag set above. -/
theorem C4_topoly_bound_and_reporting_witness :
    ([1, 0] : List ℕ).length ≤ MAX_FACE_SIDEDNESS + 2 :=
  (@C4_topoly_bound_and_reporting ℕ ℕ instDecidableEqNat instDecidableEqNat
    (fun _ => none) (fun _ => none) none badFlags).1 [1, 0] (by decide)

/-! ## Concrete evaluation claims: C5, C1, C3, C9 -/

/-- Euler characteristic `V − E + F` with `E` counted by `edges()`. -/
def eulerChar (p : polyhedron) : ℤ :=
  (p.vertices.length : ℤ) - p.edges.length + p.faces.length

/-- All directed edges of all faces. -/
abbrev directedEdges (p : polyhedron) : List (ℕ × ℕ) :=
  (p.faces.map faceToEdges).flatten

/-- A closed, consistently oriented manifold mesh in the sense of §3 of the
specification: faces of length ≥ 3 with distinct in-range vertex ids, and
every directed edge appearing exactly once with its reversal appearing
exactly once (each undirected edge borders exactly two faces, traversed in
opposite directions). -/
abbrev orientedManifold (p : polyhedron) : Prop :=
  (∀ f ∈ p.faces, 3 ≤ f.length ∧ f.Nodup ∧ ∀ v ∈ f, v < p.vertices.length) ∧
  (∀ e ∈ directedEdges p,
    (directedEdges p).count e = 1 ∧ (directedEdges p).count (e.2, e.1) = 1)

/-- C5: `chamfer(cube, dist=0.5)` yields `8 + 2·12 = 32` vertices and
`12 + 6 = 18` faces: 12 new hexagons plus the 6 original (square) faces. -/
theorem C5_chamfer_cube_counts :
    (chamfer cube (1 / 2)).vertices.length = 32 ∧
    (chamfer cube (1 / 2)).faces.length = 18 ∧
    (chamfer cube (1 / 2)).faces.countP (fun f => f.length = 6) = 12 ∧
    (chamfer cube (1 / 2)).faces.countP (fun f => f.length = 4) = 6 := by
  decide!

/-- C1 counterexample: `hollow` is in the operator list, the cube is a
closed, consistently oriented combinatorial sphere, yet
`hollow(cube)` (default parameters `0.5`, `0.2`) has
`V − E + F = 64 − 144 + 72 = −8 ≠ 2` — it is a closed genus-5 shell, not a
sphere. -/
theorem C1_counterexample_hollow_genus :
    orientedManifold cube ∧ eulerChar cube = 2 ∧
    eulerChar (hollow cube (1 / 2) (1 / 5)) = -8 ∧
    (hollow cube (1 / 2) (1 / 5)).vertices.length = 64 ∧
    (hollow cube (1 / 2) (1 / 5)).edges.length = 144 ∧
    (hollow cube (1 / 2) (1 / 5)).faces.length = 72 := by
  decide!

/-- The tetrahedron seed scaled by 2: a combinatorial sphere whose edges are
far from unit-sphere tangency, so canonicalization cannot converge in one
pass. -/
def tetrahedron2x : polyhedron :=
  { name := "2T", faces := tetrahedron.faces,
    vertices := tetrahedron.vertices.map (mult 2) }

/-- The "pillow": two triangles glued along their three edges.  Every
undirected edge borders exactly two faces with opposite orientations, so this
is a closed, consistently oriented combinatorial sphere (`V − E + F = 2`),
but each vertex has degree 2. -/
def pillow : polyhedron :=
  { name := "W", faces := [[0, 1, 2], [2, 1, 0]],
    vertices := [(2, 0, 0), (0, 2, 0), (0, 0, 2)] }

/-- Decidable test that `b` is a rotation of `a`. -/
def isRotation (a b : List ℕ) : Bool :=
  (List.range (a.length + 1)).any (fun r => decide (a.rotate r = b))

theorem isRotation_sound (a b : List ℕ) (h : isRotation a b = true) :
    ∃ r, a.rotate r = b := by
  unfold isRotation at h
  rw [List.any_eq_true] at h
  obtain ⟨r, _, h2⟩ := h
  exact ⟨r, of_decide_eq_true h2⟩

/-- C1 (amended): every Conway operator in the library **except `hollow`**
(dual, ambo, kisN, gyro, propellor, chamfer, whirl, quinto, insetN, extrudeN,
loft, perspectiva1, trisub) preserves Euler's relation `V − E + F = 2` on the
closed, consistently oriented combinatorial-sphere seed inputs evaluated here
(tetrahedron for all operators but chamfer, which the specification's own
scenario ties to the cube), each with its documented default parameters;
`hollow` instead produces a closed higher-genus shell (see the
counterexample). -/
theorem C1_amended_euler_of_operators :
    orientedManifold tetrahedron ∧ orientedManifold cube ∧
    eulerChar tetrahedron = 2 ∧ eulerChar cube = 2 ∧
    (dual tetrahedron).map eulerChar = some 2 ∧
    eulerChar (ambo tetrahedron) = 2 ∧
    eulerChar (kisN tetrahedron 0 (1 / 10)).1 = 2 ∧
    eulerChar (gyro tetrahedron) = 2 ∧
    eulerChar (propellor tetrahedron) = 2 ∧
    eulerChar (chamfer cube (1 / 2)) = 2 ∧
    eulerChar (whirl tetrahedron) = 2 ∧
    eulerChar (quinto tetrahedron) = 2 ∧
    eulerChar (insetN tetrahedron 0 (1 / 2) (-(1 / 5))).1 = 2 ∧
    eulerChar (extrudeN tetrahedron 0) = 2 ∧
    eulerChar (loft tetrahedron 0 (1 / 2)) = 2 ∧
    eulerChar (perspectiva1 tetrahedron) = 2 ∧
    eulerChar (trisub tetrahedron 2) = 2 := by
  decide!

/-- C3 counterexample: the pillow is a closed, consistently oriented
combinatorial-sphere polyhedron, yet `dual(pillow)` — and hence
`dual(dual(pillow))` — crashes (modelled by `none`): the topological dual has
2-gon faces, and `sortF` iterates `poly.faces[f[2]]` = `undefined`.  So
`dual(dual(P))` does not reproduce `P`'s structure for every closed,
consistently oriented manifold `P`. -/
theorem C3_counterexample_pillow_crash :
    orientedManifold pillow ∧ eulerChar pillow = 2 ∧
    dual pillow = none ∧ (dual pillow).bind dual = none := by
  decide!

/-- C3 (amended): on inputs whose vertices all have degree ≥ 3 the double
dual reproduces the vertex and face counts and the same face vertex-id
cycles up to rotation, face index by face index; verified here on the
tetrahedron and cube seeds (vertex positions differ: dual uses face
centroids). -/
theorem C3_amended_dual_dual_on_seeds :
    ((dual tetrahedron).bind dual).map (fun dd => (dd.vertices.length, dd.faces.length)) =
      some (tetrahedron.vertices.length, tetrahedron.faces.length) ∧
    ((((dual tetrahedron).bind dual).getD {}).faces.zip tetrahedron.faces).all
      (fun ab => isRotation ab.2 ab.1) = true ∧
    ((dual cube).bind dual).map (fun dd => (dd.vertices.length, dd.faces.length)) =
      some (cube.vertices.length, cube.faces.length) ∧
    ((((dual cube).bind dual).getD {}).faces.zip cube.faces).all
      (fun ab => isRotation ab.2 ab.1) = true := by
  decide!

/-- C9: the `reciprocalC` used by `adjustXYZ` does **not** rescale the face
centers by the inverse-square-distance factor: its `for (let c of centers)`
loop rebinds the loop variable only, so the function returns the centers
unchanged, contradicting both its own comment and the specification; on the
tetrahedron the unrescaled centers (`±1/3` components) differ from the
spec-described reciprocals (`±1` components), and one `adjustXYZ` iteration
accordingly returns the centers-of-centers (`±1/9` components) instead of
reciprocated points. -/
theorem C9_reciprocalC_dead_rescale :
    reciprocalC tetrahedron = tetrahedron.centers ∧
    reciprocalCSpec tetrahedron ≠ reciprocalC tetrahedron ∧
    (adjustXYZ tetrahedron 1).map (fun p => p.vertices) =
      some [(1 / 9, 1 / 9, 1 / 9), (1 / 9, -(1 / 9), -(1 / 9)),
            (-(1 / 9), 1 / 9, -(1 / 9)), (-(1 / 9), -(1 / 9), 1 / 9)] := by
  refine ⟨rfl, by decide!, by decide!⟩

/-! ## Claim C7: the canonicalize iteration bound -/

theorem canonLoop_passes (faces : List (List ℕ)) (edges : List (ℕ × ℕ)) :
    ∀ (fuel : ℕ) (st : CanonState),
      (canonLoop faces edges fuel st).passes ≤ st.passes + fuel ∧
      ((canonLoop faces edges fuel st).passes < st.passes + fuel →
        (canonLoop faces edges fuel st).maxChange < 1 / 10 ^ 8) := by
  intro fuel
  induction fuel with
  | zero =>
    intro st
    rw [canonLoop]
    exact ⟨Nat.le_refl _, fun h => absurd h (by omega)⟩
  | succ fuel ih =>
    intro st
    rw [canonLoop]
    have hp : (canonStep faces edges st).passes = st.passes + 1 := rfl
    by_cases h : (canonStep faces edges st).maxChange < 1 / 10 ^ 8
    · rw [if_pos h]
      exact ⟨by omega, fun _ => h⟩
    · rw [if_neg h]
      obtain ⟨h1, h2⟩ := ih (canonStep faces edges st)
      rw [hp] at h1 h2
      exact ⟨by omega, fun hlt => h2 (by omega)⟩

/-- C7 (amended): `canonicalize(poly, Niter)` executes at most `N + 1`
relaxation passes, where `N` is `Niter` with the JS-falsy default
(`N = 1` when `Niter = 0`) — one pass **more** than the requested count,
because the loop header is `for (let i = 0; i <= Niter; i++)`.  It stops
earlier only when a pass's maximum vertex displacement has dropped below
`1e-8`; in every case the (possibly non-converged) relaxed vertices are
returned with the topology untouched, and the last displacement magnitude is
returned for the console report `[canonicalization done, last |deltaV|=...]`. -/
theorem C7_canonicalize_pass_bound (poly : polyhedron) (Niter : ℕ) :
    (canonicalize poly Niter).passes ≤ (if Niter = 0 then 1 else Niter) + 1 ∧
    ((canonicalize poly Niter).passes < (if Niter = 0 then 1 else Niter) + 1 →
      (canonicalize poly Niter).lastMaxChange < 1 / 10 ^ 8) ∧
    (canonicalize poly Niter).poly.faces = poly.faces ∧
    (canonicalize poly Niter).poly.vertices =
      (canonLoop poly.faces poly.edges ((if Niter = 0 then 1 else Niter) + 1)
        { newVs := poly.vertices, maxChange := 1, passes := 0 }).newVs := by
  obtain ⟨h1, h2⟩ := canonLoop_passes poly.faces poly.edges
    ((if Niter = 0 then 1 else Niter) + 1)
    { newVs := poly.vertices, maxChange := 1, passes := 0 }
  simp only [Nat.zero_add] at h1 h2
  exact ⟨h1, h2, rfl, rfl⟩

/-- Witness for C7 at the tetrahedron seed with `Niter = 1`. -/
theorem C7_canonicalize_pass_bound_witness :
    (canonicalize tetrahedron 1).passes ≤ 2 ∧
    (canonicalize tetrahedron 1).poly.faces = tetrahedron.faces := by
  have h := C7_canonicalize_pass_bound tetrahedron 1
  exact ⟨by simpa using h.1, h.2.2.1⟩

/-- C7 counterexample: with `Niter = 1` the claim as stated allows at most
one relaxation pass, but on the doubled tetrahedron (whose first pass moves
vertices far more than `1e-8`) `canonicalize` executes 2 passes. -/
theorem C7_counterexample_extra_pass :
    (canonicalize tetrahedron2x 1).passes = 2 ∧
    1 / 10 ^ 8 ≤ (canonicalize tetrahedron2x 1).lastMaxChange := by
  decide!

/-! ## Claim C8: canonicalization entry points keep faces intact -/

theorem foldl_preserve {α β : Type} (f : α → β → α) (P : α → Prop)
    (h : ∀ a b, P a → P (f a b)) : ∀ (l : List β) (a : α), P a → P (l.foldl f a) := by
  intro l
  induction l with
  | nil => exact fun a ha => ha
  | cons b l ih => exact fun a ha => ih (f a b) (h a b ha)

/-- C8: every canonicalization entry point (`canonicalize`, `canonicalXYZ`,
`adjustXYZ`, `spherize`) changes only vertex coordinates: whenever a
polyhedron is returned, its `faces` list is the very face list of the input
(same list, same vertex-id cycles, same order). -/
theorem C8_canonicalization_topology_invariant :
    (∀ (p : polyhedron) (n : ℕ), (canonicalize p n).poly.faces = p.faces) ∧
    (∀ (p : polyhedron) (n : ℕ), ∀ r ∈ canonicalXYZ p n, r.faces = p.faces) ∧
    (∀ (p : polyhedron) (n : ℕ), ∀ r ∈ adjustXYZ p n, r.faces = p.faces) ∧
    (∀ p : polyhedron, (spherize p).faces = p.faces) := by
  refine ⟨fun p n => rfl, ?_, ?_, fun p => rfl⟩
  · intro p n r hr
    unfold canonicalXYZ at hr
    cases hd : dual p with
    | none => rw [hd] at hr; cases hr
    | some dpoly =>
      rw [hd] at hr
      have hfold := foldl_preserve (fun st _ => canonicalXYZStep st)
        (fun (st : polyhedron × polyhedron) => st.1.faces = p.faces)
        (fun st b hst => hst) (List.range (if n = 0 then 1 else n)) (p, dpoly) rfl
      rw [Option.mem_def] at hr
      have hr2 := Option.some_inj.mp hr
      rw [← hr2]
      exact hfold
  · intro p n r hr
    unfold adjustXYZ at hr
    cases hd : dual p with
    | none => rw [hd] at hr; cases hr
    | some dpoly =>
      rw [hd] at hr
      have hfold := foldl_preserve (fun st _ => adjustXYZStep st)
        (fun (st : polyhedron × polyhedron) => st.1.faces = p.faces)
        (fun st b hst => hst) (List.range (if n = 0 then 1 else n)) (p, dpoly) rfl
      rw [Option.mem_def] at hr
      have hr2 := Option.some_inj.mp hr
      rw [← hr2]
      exact hfold

/-- Witness for C8 at the tetrahedron seed. -/
theorem C8_canonicalization_topology_invariant_witness :
    ((adjustXYZ tetrahedron 1).getD {}).faces = tetrahedron.faces ∧
    (spherize tetrahedron).faces = tetrahedron.faces := by
  constructor
  · cases h : adjustXYZ tetrahedron 1 with
    | none => exact absurd h (by decide!)
    | some r =>
      have := C8_canonicalization_topology_invariant.2.2.1 tetrahedron 1 r
        (by rw [h]; rfl)
      simpa [h] using this
  · exact C8_canonicalization_topology_invariant.2.2.2 tetrahedron

/-! ## Machinery for claim C6: assembling unmatched-selector outputs -/

/-- The `(previous, current)` pairs produced by walking a face with a carried
predecessor, as `kisN`/`insetN`/`faceToEdges` all do. -/
def pairsFrom : ℕ → List ℕ → List (ℕ × ℕ)
  | _, [] => []
  | prev, v :: vs => (prev, v) :: pairsFrom v vs

theorem faceToEdges_fold_aux :
    ∀ (f : List ℕ) (acc : List (ℕ × ℕ)) (prev : ℕ),
      (f.foldl (fun (acc : List (ℕ × ℕ) × ℕ) v2 => (acc.1 ++ [(acc.2, v2)], v2))
        (acc, prev)).1 = acc ++ pairsFrom prev f := by
  intro f
  induction f with
  | nil => intro acc prev; simp [pairsFrom]
  | cons v vs ih =>
    intro acc prev
    rw [List.foldl_cons, ih, pairsFrom]
    simp

theorem faceToEdges_eq_pairsFrom (f : List ℕ) (last : ℕ)
    (h : f.getLast? = some last) : faceToEdges f = pairsFrom last f := by
  unfold faceToEdges
  rw [h]
  simpa using faceToEdges_fold_aux f [] last

theorem pairsFrom_map_fst :
    ∀ (f : List ℕ) (prev : ℕ), f ≠ [] →
      (pairsFrom prev f).map Prod.fst = prev :: f.dropLast := by
  intro f
  induction f with
  | nil => intro prev h; exact absurd rfl h
  | cons v vs ih =>
    intro prev _
    cases hvs : vs with
    | nil => simp [pairsFrom]
    | cons w ws =>
      rw [pairsFrom, List.map_cons]
      rw [hvs] at ih
      rw [ih v (by simp)]
      simp

theorem pairsFrom_map_snd :
    ∀ (f : List ℕ) (prev : ℕ), (pairsFrom prev f).map Prod.snd = f := by
  intro f
  induction f with
  | nil => intro prev; rfl
  | cons v vs ih => intro prev; rw [pairsFrom, List.map_cons, ih]

theorem pairsFrom_keys_nodup (f : List ℕ) (last : ℕ) (hne : f ≠ [])
    (hlast : f.getLast? = some last) (hnd : f.Nodup) :
    ((pairsFrom last f).map Prod.fst).Nodup := by
  rw [pairsFrom_map_fst f last hne]
  have hl : f.getLast hne = last := by
    rw [List.getLast?_eq_getLast f hne] at hlast
    exact Option.some_inj.mp hlast
  have he : f.dropLast ++ [last] = f := by
    rw [← hl]
    exact List.dropLast_append_getLast hne
  have hperm : List.Perm ([last] ++ f.dropLast) f := by
    have h1 : List.Perm ([last] ++ f.dropLast) (f.dropLast ++ [last]) :=
      List.perm_append_comm
    rw [he] at h1
    exact h1
  exact (List.Perm.nodup_iff hperm).mpr hnd

end Polyhedronisme
